import Mathlib

/-!
Shallow embedding of the gojuice tree-walking evaluator (packages `scope` and
`machine`) for checking the natural-language specification against the code.

Conventions of the embedding:
* Go `interface{}` runtime values become the closed `Value` variant below;
  the Go `nil` interface value (the language's Undefined) is `Value.vundef`.
* Go `int` is modelled by `Int` (no claim under scrutiny depends on 64-bit
  wraparound), Go `float64` by `Rat` (no claim under scrutiny depends on
  IEEE rounding; only the numeric *kind* of results matters to the claims).
* Fallible evaluation returns `Except Err α`.  A Go runtime panic (slice
  index out of range, integer divide by zero, `make` with negative length)
  is modelled by the distinguished outcome `Err.goPanic`: it is a crash of
  the interpreter, not one of the designed error kinds.
* Go maps used as association tables (`scope.S.bindings`, objects, the two
  globals tables) are modelled as association lists with unique keys.
* The mutable scope chain (`machine.Runtime.Scope`, `scope.S.Parent`) is
  modelled as a store of frames addressed by index, with the runtime's
  current-scope pointer threaded explicitly through evaluation.
* The recursive evaluator is made total with a fuel parameter; every
  recursive step consumes one unit and exhaustion yields `Err.fuelOut`,
  which corresponds to no behaviour of the Go code (Go recursion is bounded
  only by the host stack).
-/

namespace Gojuice

/-- Binary operator tokens reaching `Evaluator.EvalBinaryExpr` that the
claims are about.  The assignment token is represented by the dedicated
`Expr.assignVar` node (mirroring the source's early `expr.Op == js.EqToken`
branch) and the two equality tokens are omitted as irrelevant to the claims. -/
inductive BinOp where
  | add
  | sub
  | mul
  | div
deriving DecidableEq

mutual

/-- Runtime values of the interpreter (Go `interface{}`).
`vundef` is the Go `nil` interface value.  `vfunc` is the closure produced by
`GenerateJSFunction`: it captures the defining scope (`parentScope`, here the
index of that frame in the store), the formal parameter list and the body
block. -/
inductive Value where
  | vundef
  | vint (n : Int)
  | vfloat (q : Rat)
  | vstr (s : String)
  | vbool (b : Bool)
  | varr (elems : List Value)
  | vobj (entries : List (String × Value))
  | vfunc (capturedScope : Nat) (params : List BindingElement) (body : List Stmt)

/-- Expression nodes of the syntax tree that the claims are about
(`js.LiteralExpr`, `js.Var`, `js.ArrowFunc`, assignment to a bare name,
`js.BinaryExpr`, `js.CallExpr`). -/
inductive Expr where
  | lit (v : Value)
  | evar (name : String)
  | arrow (params : List BindingElement) (body : List Stmt)
  | assignVar (name : String) (rhs : Expr)
  | binary (op : BinOp) (x : Expr) (y : Expr)
  | call (callee : Expr) (args : List Expr)

/-- Statement nodes of the syntax tree that the claims are about
(`js.ExprStmt`, `js.ReturnStmt`, `js.BlockStmt`, `js.VarDecl`). -/
inductive Stmt where
  | expr (e : Expr)
  | ret (e : Expr)
  | block (stmts : List Stmt)
  | varDecl (constant : Bool) (els : List BindingElement)

/-- `js.BindingElement` restricted to the only supported shape, a simple
identifier with an optional default-value expression. -/
inductive BindingElement where
  | mk (name : String) (dflt : Option Expr)

end

/-- The name of a binding element. -/
def BindingElement.name : BindingElement → String
  | .mk n _ => n

/-- The optional default-value expression of a binding element. -/
def BindingElement.dflt : BindingElement → Option Expr
  | .mk _ d => d

/-- `scope.Binding`: a stored value plus its constancy flag. -/
structure Binding where
  item : Value
  constant : Bool

/-- Lookup in an association list keyed by strings (a Go map read). -/
def alistGet {α : Type} : List (String × α) → String → Option α
  | [], _ => none
  | (k, a) :: rest, name => if k = name then some a else alistGet rest name

/-- Insert-or-overwrite in an association list keyed by strings
(a Go map assignment); keys stay unique. -/
def alistPut {α : Type} : List (String × α) → String → α → List (String × α)
  | [], name, a => [(name, a)]
  | (k, old) :: rest, name, a =>
    if k = name then (name, a) :: rest else (k, old) :: alistPut rest name a

/-- One scope (`scope.S`): the parent pointer (index into the frame store,
`none` for the root) and the local binding table. -/
structure Frame where
  parent : Option Nat
  bindings : List (String × Binding)

/-- The empty frame used as the out-of-store default. -/
def emptyFrame : Frame := ⟨none, []⟩

/-- `scope.S.Set`: when the name already has a *local* binding and that
binding is constant, report a `MutatingConstantError` carrying the old
binding and leave the scope untouched; otherwise insert or overwrite.
The first component models the returned error (`some old` standing for
`MutatingConstantError{Item: old}`), the second the resulting scope. -/
def scopeSet (f : Frame) (name : String) (b : Binding) : Option Binding × Frame :=
  match alistGet f.bindings name with
  | some old =>
    if old.constant then (some old, f)
    else (none, { f with bindings := alistPut f.bindings name b })
  | none => (none, { f with bindings := alistPut f.bindings name b })

/-- `scope.S.Get`: local lookup only. -/
def scopeGet (f : Frame) (name : String) : Option Binding :=
  alistGet f.bindings name

/-- The mutable state of `machine.Runtime` as seen by the evaluator: the
store of all scope frames ever created, the index of the currently active
scope, and the two globals tables (`Runtime.Globals` and `M.Globals`). -/
structure RState where
  frames : List Frame
  current : Nat
  globals : List (String × Value)
  machineGlobals : List (String × Value)

/-- The currently active frame (`e.Runtime.Scope`). -/
def currentFrame (st : RState) : Frame :=
  (st.frames.get? st.current).getD emptyFrame

/-- Write back the currently active frame after a mutation. -/
def setCurrentFrame (st : RState) (f : Frame) : RState :=
  { st with frames := st.frames.set st.current f }

/-- `e.Runtime.Scope = scope.New(e.Runtime.Scope)`: allocate a child of the
active scope and make it active. -/
def pushScope (st : RState) : RState :=
  { st with
    frames := st.frames ++ [⟨some st.current, []⟩]
    current := st.frames.length }

/-- `e.Runtime.Scope = scope.New(parentScope)`: allocate a child of the given
frame (a function's captured scope) and make it active. -/
def pushScopeFrom (st : RState) (parent : Nat) : RState :=
  { st with
    frames := st.frames ++ [⟨some parent, []⟩]
    current := st.frames.length }

/-- `e.Runtime.Scope = e.Runtime.Scope.Parent`: leave the active scope
(the deferred restoration in `EvalBlockStmt`). -/
def popScope (st : RState) : RState :=
  { st with current := (currentFrame st).parent.getD st.current }

/-- The error kinds of the `machine` package, plus the two modelling
outcomes `goPanic` (a Go runtime panic, i.e. an interpreter crash that is
not one of the designed error values) and `fuelOut` (fuel exhaustion of the
embedding, corresponding to no Go behaviour). -/
inductive Err where
  | mutatingConstant
  | indexOutOfBounds
  | nonIntegerIndex
  | notObject
  | notDeclared
  | binaryOpNotImplemented
  | notImplemented
  | notCallable
  | wrongNumberOfArgs
  | notFunction
  | notPair
  | goPanic
  | fuelOut
deriving DecidableEq

/-- Walk the scope chain from frame `idx` looking for `name`
(the loop in `Runtime.Lookup` / `EvalVar`).  The chain in any reachable
state is acyclic, so a fuel of `frames.length + 1` always suffices. -/
def lookupChain : Nat → List Frame → Nat → String → Option Value
  | 0, _, _, _ => none
  | k + 1, frames, idx, name =>
    match frames.get? idx with
    | none => none
    | some f =>
      match alistGet f.bindings name with
      | some b => some b.item
      | none =>
        match f.parent with
        | none => none
        | some p => lookupChain k frames p name

/-- `Runtime.Lookup`: the scope chain, then the runtime-local globals, then
the machine-level globals, else a `NotDeclaredError`. -/
def lookupVar (st : RState) (name : String) : Except Err Value :=
  match lookupChain (st.frames.length + 1) st.frames st.current name with
  | some v => .ok v
  | none =>
    match alistGet st.globals name with
    | some v => .ok v
    | none =>
      match alistGet st.machineGlobals name with
      | some v => .ok v
      | none => .error .notDeclared

/-- Model of `fmt.Sprint` on a Go `int`. -/
def sprintInt (n : Int) : String := toString n

/-- Model of `fmt.Sprint` on a Go `float64` (the exact rendered text of the
Go formatter is abstracted; no claim depends on it). -/
def sprintFloat (q : Rat) : String := toString q

/-- `machine.Add`: the binary `+` table. -/
def Add (x y : Value) : Except Err Value :=
  match x, y with
  | .vint a, .vint b => .ok (.vint (a + b))
  | .vint a, .vfloat q => .ok (.vfloat ((a : Rat) + q))
  | .vfloat q, .vint b => .ok (.vfloat (q + (b : Rat)))
  | .vfloat q, .vfloat r => .ok (.vfloat (q + r))
  | .vstr s, .vint b => .ok (.vstr (s ++ sprintInt b))
  | .vstr s, .vfloat r => .ok (.vstr (s ++ sprintFloat r))
  | .vstr s, .vstr t => .ok (.vstr (s ++ t))
  | .varr xs, .varr ys => .ok (.varr (xs ++ ys))
  | _, _ => .error .binaryOpNotImplemented

/-- `machine.Sub`: the binary `-` table. -/
def Sub (x y : Value) : Except Err Value :=
  match x, y with
  | .vint a, .vint b => .ok (.vint (a - b))
  | .vint a, .vfloat q => .ok (.vfloat ((a : Rat) - q))
  | .vfloat q, .vint b => .ok (.vfloat (q - (b : Rat)))
  | .vfloat q, .vfloat r => .ok (.vfloat (q - r))
  | _, _ => .error .binaryOpNotImplemented

/-- `machine.Div`: the binary `/` table.  Go's `/` on `int` truncates toward
zero (`Int.tdiv`) and panics on a zero divisor; float division by zero does
not panic in Go (it yields an infinity, whose payload this model does not
track). -/
def Div (x y : Value) : Except Err Value :=
  match x, y with
  | .vint a, .vint b =>
    if b = 0 then .error .goPanic else .ok (.vint (Int.tdiv a b))
  | .vint a, .vfloat q => .ok (.vfloat ((a : Rat) / q))
  | .vfloat q, .vint b => .ok (.vfloat (q / (b : Rat)))
  | .vfloat q, .vfloat r => .ok (.vfloat (q / r))
  | _, _ => .error .binaryOpNotImplemented

/-- The loop `for i := 0; i < yv; i++ { res += xv }`: the string repeated
`n` times, empty for `n ≤ 0` (`Int.toNat` clamps at zero exactly as the
loop does). -/
def repeatString (s : String) (n : Int) : String :=
  String.join (List.replicate n.toNat s)

/-- `n` concatenated copies of a list (the copy loop of the array case of
`machine.Mul`). -/
def repeatList (l : List Value) (n : Nat) : List Value :=
  (List.replicate n l).flatten

/-- `machine.Mul`: the binary `*` table.  The array case first executes
`make([]interface{}, len(xv)*yv)`, which panics (`makeslice: len out of
range`) whenever `len(xv)*yv` is negative. -/
def Mul (x y : Value) : Except Err Value :=
  match x, y with
  | .vint a, .vint b => .ok (.vint (a * b))
  | .vint a, .vfloat q => .ok (.vfloat ((a : Rat) * q))
  | .vfloat q, .vint b => .ok (.vfloat (q * (b : Rat)))
  | .vfloat q, .vfloat r => .ok (.vfloat (q * r))
  | .vstr s, .vint b => .ok (.vstr (repeatString s b))
  | .varr xs, .vint b =>
    if (xs.length : Int) * b < 0 then .error .goPanic
    else .ok (.varr (repeatList xs b.toNat))
  | _, _ => .error .binaryOpNotImplemented

/-- A Go slice read `v[i]`: the element when `0 ≤ i < len(v)`, otherwise a
runtime panic (`index out of range`). -/
def sliceGet (v : List Value) (i : Int) : Except Err Value :=
  if h : 0 ≤ i ∧ i.toNat < v.length then .ok (v.get ⟨i.toNat, h.2⟩)
  else .error .goPanic

/-- A Go slice write `v[i] = y`: the updated sequence when
`0 ≤ i < len(v)`, otherwise a runtime panic. -/
def sliceSet (v : List Value) (i : Int) (y : Value) : Except Err (List Value) :=
  if 0 ≤ i ∧ i.toNat < v.length then .ok (v.set i.toNat y)
  else .error .goPanic

/-- The negative-index normalisation shared by the array read and write
paths: `if idx < 0 { idx = idx % len(v) }`, where Go `%` is the truncated
remainder (`Int.tmod`, keeping the dividend's sign) and `% 0` panics. -/
def normalizeIndex (len : Nat) (idx : Int) : Except Err Int :=
  if idx < 0 then
    if len = 0 then .error .goPanic
    else .ok (Int.tmod idx (len : Int))
  else .ok idx

/-- The `[]interface{}` case of `Evaluator.EvalIndexExpr` (array index
read): normalise a negative index by `% len`, reject indices with
`idx > len(v)` as `IndexOutOfBoundsError`, then perform the slice read
`v[idx]`.  Any non-integer index yields `NonIntegerIndexError`. -/
def indexArrayRead (v : List Value) (y : Value) : Except Err Value :=
  match y with
  | .vint idx0 =>
    match normalizeIndex v.length idx0 with
    | .error e => .error e
    | .ok idx =>
      if idx > (v.length : Int) then .error .indexOutOfBounds
      else sliceGet v idx
  | _ => .error .nonIntegerIndex

/-- The `[]interface{}` case of the `js.IndexExpr` branch of
`Evaluator.EvalAssignment` (array index write): normalise a negative index
by `% len`, reject indices with `i+1 > len(ass)` as
`IndexOutOfBoundsError`, then perform the slice write `ass[i] = y`.
Any non-integer index yields `NonIntegerIndexError`. -/
def indexArrayAssign (ass : List Value) (idxv : Value) (y : Value) :
    Except Err (List Value) :=
  match idxv with
  | .vint i0 =>
    match normalizeIndex ass.length i0 with
    | .error e => .error e
    | .ok i =>
      if i + 1 > (ass.length : Int) then .error .indexOutOfBounds
      else sliceSet ass i y
  | _ => .error .nonIntegerIndex

/-- The three built-in collection methods exposed by `EvalDotExpr`. -/
inductive MethodKind where
  | reduce
  | map
  | forEach
deriving DecidableEq

/-- The result of a dot access on an Object: either one of the built-in
collection-method closures (which captures the receiver's entries), or a
plain stored value. -/
inductive DotRes where
  | method (m : MethodKind) (receiver : List (String × Value))
  | val (v : Value)

/-- The `map[string]interface{}` case of `Evaluator.EvalDotExpr`: the names
`reduce`, `map` and `forEach` always dispatch to the built-in closures; any
other name reads the object's own entry (a Go map read, so a missing key
yields the `nil` interface value, i.e. Undefined). -/
def evalDotObj (entries : List (String × Value)) (name : String) : DotRes :=
  if name = "reduce" then .method .reduce entries
  else if name = "map" then .method .map entries
  else if name = "forEach" then .method .forEach entries
  else .val ((alistGet entries name).getD Value.vundef)

mutual

/-- `Evaluator.Eval` on expression nodes.  Each recursive step of the Go
evaluator consumes one unit of fuel here. -/
def evalE : Nat → RState → Expr → Except Err Value × RState
  | 0, st, _ => (.error .fuelOut, st)
  | fuel + 1, st, e =>
    match e with
    | .lit v => (.ok v, st)
    | .evar name => (lookupVar st name, st)
    | .arrow params body => (.ok (.vfunc st.current params body), st)
    | .assignVar name rhs =>
      -- EvalAssignment, `*js.Var` case: evaluate the right side, then
      -- `e.Runtime.Scope.Set(name, &scope.Binding{Item: y, Constant: false})`
      -- on the innermost active scope only.
      match evalE fuel st rhs with
      | (.error er, st') => (.error er, st')
      | (.ok y, st') =>
        match scopeSet (currentFrame st') name ⟨y, false⟩ with
        | (some _, _) => (.error .mutatingConstant, st')
        | (none, f') => (.ok y, setCurrentFrame st' f')
    | .binary op x y =>
      -- EvalBinaryExpr: both operands evaluated eagerly, left then right,
      -- then the token dispatch.  The source switch lists only the
      -- equality, Add, Sub and Mul tokens; a division token falls through
      -- to the catch-all NotImplementedError.
      match evalE fuel st x with
      | (.error er, st') => (.error er, st')
      | (.ok xv, st1) =>
        match evalE fuel st1 y with
        | (.error er, st') => (.error er, st')
        | (.ok yv, st2) =>
          match op with
          | .add => (Add xv yv, st2)
          | .sub => (Sub xv yv, st2)
          | .mul => (Mul xv yv, st2)
          | .div => (.error .notImplemented, st2)
    | .call callee args =>
      -- EvalCallExpr: evaluate the callee, then each argument in order,
      -- then invoke through `machine.Call`, which rejects non-functions.
      match evalE fuel st callee with
      | (.error er, st') => (.error er, st')
      | (.ok fv, st1) =>
        match evalArgs fuel st1 args with
        | (.error er, st') => (.error er, st')
        | (.ok argVs, st2) =>
          match fv with
          | .vfunc cap ps body => callJS fuel st2 cap ps body argVs
          | _ => (.error .notCallable, st2)

/-- `Evaluator.Eval` on statement nodes. -/
def evalS : Nat → RState → Stmt → Except Err Value × RState
  | 0, st, _ => (.error .fuelOut, st)
  | fuel + 1, st, s =>
    match s with
    | .expr e => evalE fuel st e
    | .ret e =>
      -- EvalReturnStmt: `return e.Eval(stmt.Value)` — the operand's value
      -- becomes the statement's result, nothing more.
      evalE fuel st e
    | .block l =>
      -- EvalBlockStmt: push a child scope, run the statements, and restore
      -- the previous scope on every exit path (the deferred pop).
      let st1 := pushScope st
      match evalStmts fuel st1 l with
      | (r, st2) => (r, popScope st2)
    | .varDecl constant els =>
      match evalBindingElements fuel st els constant with
      | (some er, st') => (.error er, st')
      | (none, st') => (.ok .vundef, st')

/-- The statement loop of `EvalBlockStmt`: `res` tracks the last evaluated
statement's value, the first error aborts, and an empty list leaves `res`
as the `nil` interface value. -/
def evalStmts : Nat → RState → List Stmt → Except Err Value × RState
  | _, st, [] => (.ok .vundef, st)
  | 0, st, _ :: _ => (.error .fuelOut, st)
  | fuel + 1, st, s :: rest =>
    match evalS fuel st s with
    | (.error er, st') => (.error er, st')
    | (.ok v, st') =>
      match rest with
      | [] => (.ok v, st')
      | _ :: _ => evalStmts fuel st' rest

/-- The argument loop of `EvalCallExpr`. -/
def evalArgs : Nat → RState → List Expr → Except Err (List Value) × RState
  | _, st, [] => (.ok [], st)
  | 0, st, _ :: _ => (.error .fuelOut, st)
  | fuel + 1, st, a :: rest =>
    match evalE fuel st a with
    | (.error er, st') => (.error er, st')
    | (.ok v, st') =>
      match evalArgs fuel st' rest with
      | (.error er, st'') => (.error er, st'')
      | (.ok vs, st'') => (.ok (v :: vs), st'')

/-- `Evaluator.EvalBindingElement`: when the incoming value is the `nil`
interface (Undefined), it is replaced by the result of evaluating the
element's default expression (evaluating an absent default yields `nil`
again); then the binding is written with `scope.S.Set`, whose returned
error is DROPPED by the source (`e.Runtime.Scope.Set(...)` with no error
check), so a constant-mutation failure leaves the scope untouched and
surfaces nothing. -/
def evalBindingElement :
    Nat → RState → BindingElement → Value → Bool → Option Err × RState
  | 0, st, _, _, _ => (some .fuelOut, st)
  | fuel + 1, st, el, value, constant =>
    match
      (match value with
       | .vundef =>
         match el.dflt with
         | none => (Except.ok Value.vundef, st)
         | some d => evalE fuel st d
       | v => (Except.ok v, st)) with
    | (.error er, st') => (some er, st')
    | (.ok v, st') =>
      match scopeSet (currentFrame st') el.name ⟨v, constant⟩ with
      | (_, f') => (none, setCurrentFrame st' f')

/-- The loop of `Evaluator.EvalVarDecl`: each element is bound with no
initial value (`nil`), so its default expression decides the value. -/
def evalBindingElements :
    Nat → RState → List BindingElement → Bool → Option Err × RState
  | _, st, [], _ => (none, st)
  | 0, st, _ :: _, _ => (some .fuelOut, st)
  | fuel + 1, st, el :: rest, constant =>
    match evalBindingElement fuel st el Value.vundef constant with
    | (some er, st') => (some er, st')
    | (none, st') => evalBindingElements fuel st' rest constant

/-- The closure produced by `GenerateJSFunction`: remember the caller's
scope, enter a fresh child of the *captured* scope, fail with
`WrongNumberOfArgsError` when more actuals than formals are supplied, bind
the formals positionally (missing trailing actuals fall back to defaults),
evaluate the body as a block, and restore the caller's scope on every exit
path. -/
def callJS :
    Nat → RState → Nat → List BindingElement → List Stmt → List Value →
    Except Err Value × RState
  | 0, st, _, _, _, _ => (.error .fuelOut, st)
  | fuel + 1, st, capScope, params, body, args =>
    let saved := st.current
    let st1 := pushScopeFrom st capScope
    match
      (if args.length > params.length then
        (Except.error Err.wrongNumberOfArgs, st1)
      else
        match bindParams fuel st1 params args with
        | (some er, st') => (Except.error er, st')
        | (none, st') => evalS fuel st' (.block body)) with
    | (r, st2) => (r, { st2 with current := saved })

/-- The parameter-binding loop of `GenerateJSFunction`: formal `idx` gets
`actualParams[idx]` when supplied and the `nil` interface value otherwise,
then `EvalBindingElement` runs with that value and a mutable binding. -/
def bindParams :
    Nat → RState → List BindingElement → List Value → Option Err × RState
  | _, st, [], _ => (none, st)
  | 0, st, _ :: _, _ => (some .fuelOut, st)
  | fuel + 1, st, p :: ps, args =>
    let value := match args with
      | [] => Value.vundef
      | a :: _ => a
    match evalBindingElement fuel st p value false with
    | (some er, st') => (some er, st')
    | (none, st') => bindParams fuel st' ps args.tail

end

/-! Concrete states used by the closed theorems below. -/

/-- A fresh runtime state: one empty root scope, empty globals. -/
def st0 : RState := ⟨[⟨none, []⟩], 0, [], []⟩

/-- A root scope holding a constant binding for `x` and an active empty
child scope: the situation of `const x = 1; { ... }` inside the block. -/
def stC : RState :=
  ⟨[⟨none, [("x", ⟨Value.vint 1, true⟩)]⟩, ⟨some 0, []⟩], 1, [], []⟩

/-- `stC` after `x = 2` executed in the child scope: the child gained a
fresh non-constant binding, the parent's constant binding is untouched. -/
def stC' : RState :=
  ⟨[⟨none, [("x", ⟨Value.vint 1, true⟩)]⟩,
    ⟨some 0, [("x", ⟨Value.vint 2, false⟩)]⟩], 1, [], []⟩

/-- A single active scope holding a constant binding for `a`. -/
def st8 : RState := ⟨[⟨none, [("a", ⟨Value.vint 1, true⟩)]⟩], 0, [], []⟩

/-- A frame holding a constant binding for `a`. -/
def f1 : Frame := ⟨none, [("a", ⟨Value.vint 1, true⟩)]⟩

/-- Which built-in collection method a given name dispatches to. -/
def builtinFor (name : String) : MethodKind :=
  if name = "reduce" then .reduce
  else if name = "map" then .map
  else .forEach

/-- The operand-type pairs the amended `+` table accepts: both numeric,
string with a number or string, or two arrays. -/
def addSupported : Value → Value → Bool
  | .vint _, .vint _ => true
  | .vint _, .vfloat _ => true
  | .vfloat _, .vint _ => true
  | .vfloat _, .vfloat _ => true
  | .vstr _, .vint _ => true
  | .vstr _, .vfloat _ => true
  | .vstr _, .vstr _ => true
  | .varr _, .varr _ => true
  | _, _ => false

/-! Shared helper lemmas. -/

/-- Reading back an association-list write yields the written entry. -/
theorem alistGet_alistPut_self {α : Type} (l : List (String × α))
    (name : String) (a : α) : alistGet (alistPut l name a) name = some a := by
  induction l with
  | nil => simp [alistPut, alistGet]
  | cons kv rest ih =>
    obtain ⟨k, x⟩ := kv
    by_cases hk : k = name
    · simp [alistPut, alistGet, hk]
    · simp [alistPut, alistGet, hk, ih]

/-- Flattening any number of empty lists is empty. -/
theorem flatten_replicate_nil {α : Type} (k : Nat) :
    (List.replicate k ([] : List α)).flatten = [] := by
  induction k with
  | zero => rfl
  | succ k ih => simp [List.replicate_succ, ih]

/-- A trailing explicitly-passed Undefined argument binds the parameters
exactly as its absence does: formal `idx` receives the `nil` interface
value either way. -/
theorem bindParams_trailing_undef (ps : List BindingElement) :
    ∀ (fuel : Nat) (st : RState) (args : List Value),
      args.length < ps.length →
      bindParams fuel st ps (args ++ [Value.vundef])
        = bindParams fuel st ps args := by
  induction ps with
  | nil =>
    intro fuel st args h
    simp at h
  | cons p ps ih =>
    intro fuel st args h
    match fuel with
    | 0 => rfl
    | fuel + 1 =>
      match args with
      | [] => rfl
      | a :: args' =>
        simp only [List.cons_append, bindParams, List.tail_cons]
        rcases hbe : evalBindingElement fuel st p a false with ⟨o, st'⟩
        cases o with
        | some er => rfl
        | none =>
          exact ih fuel st' args' (Nat.lt_of_succ_lt_succ h)

/-! Claim C1. -/

/-- Claim C1 states that every Array index access with an integer index
either uses a resulting index within `[0, length)` or fails with the
index-out-of-bounds error, never touching storage outside the array.  The
code violates this: the read path's bounds check is `idx > len(v)` rather
than `idx >= len(v)`, so reading index 1 of a length-1 array passes the
check and crashes with an out-of-range slice access (a runtime panic)
instead of returning the designed error; a negative index whose truncated
remainder is negative likewise passes the check on both the read and the
write path and crashes on the slice access.  Only a strictly larger index
produces the designed out-of-bounds error. -/
theorem c1_array_index_panics :
    indexArrayRead [Value.vint 10] (.vint 1) = .error .goPanic
    ∧ indexArrayRead [Value.vint 10, Value.vint 20] (.vint (-1)) = .error .goPanic
    ∧ indexArrayAssign [Value.vint 10, Value.vint 20] (.vint (-1)) (.vint 9)
        = .error .goPanic
    ∧ indexArrayRead [Value.vint 10] (.vint 5) = .error .indexOutOfBounds
    ∧ indexArrayRead [Value.vint 10] (.vstr "k") = .error .nonIntegerIndex :=
  ⟨rfl, rfl, rfl, rfl, rfl⟩

/-! Claim C2. -/

/-- Claim C2 counterexample: with `x` bound constant in the enclosing scope
(frame 0) and unbound in the active innermost scope (frame 1), the
assignment `x = 2` does not fail with a constant-mutation error as the
claim requires; it succeeds and creates a fresh non-constant binding for
`x` in the innermost scope. -/
theorem c2_counterexample :
    evalE 2 stC (.assignVar "x" (.lit (.vint 2))) = (.ok (.vint 2), stC')
    ∧ scopeGet (currentFrame stC) "x" = none
    ∧ scopeGet ((stC.frames.get? 0).getD emptyFrame) "x"
        = some ⟨Value.vint 1, true⟩
    ∧ scopeGet (currentFrame stC') "x" = some ⟨Value.vint 2, false⟩ :=
  ⟨rfl, rfl, rfl, rfl⟩

/-- Claim C2, amended: assignment to a bare name always operates on the
innermost *active* scope, not on the innermost scope that owns a binding.
It fails with a constant-mutation error exactly when the active scope
itself holds a constant local binding for the name; otherwise it inserts or
overwrites a non-constant binding there — in particular a constant binding
in an enclosing scope is silently shadowed by a fresh binding rather than
causing an error. -/
theorem c2_assign_innermost :
    (∀ (fuel : Nat) (st : RState) (name : String) (rhs : Expr) (y : Value)
        (st' : RState) (old : Binding),
      evalE fuel st rhs = (.ok y, st') →
      scopeGet (currentFrame st') name = some old →
      old.constant = true →
      evalE (fuel + 1) st (.assignVar name rhs)
        = (.error .mutatingConstant, st'))
    ∧ (∀ (fuel : Nat) (st : RState) (name : String) (rhs : Expr) (y : Value)
        (st' : RState),
      evalE fuel st rhs = (.ok y, st') →
      scopeGet (currentFrame st') name = none →
      evalE (fuel + 1) st (.assignVar name rhs)
        = (.ok y, setCurrentFrame st'
            { currentFrame st' with
              bindings := alistPut (currentFrame st').bindings name
                ⟨y, false⟩ }))
    ∧ (∀ (fuel : Nat) (st : RState) (name : String) (rhs : Expr) (y : Value)
        (st' : RState) (old : Binding),
      evalE fuel st rhs = (.ok y, st') →
      scopeGet (currentFrame st') name = some old →
      old.constant = false →
      evalE (fuel + 1) st (.assignVar name rhs)
        = (.ok y, setCurrentFrame st'
            { currentFrame st' with
              bindings := alistPut (currentFrame st').bindings name
                ⟨y, false⟩ })) := by
  refine ⟨?_, ?_, ?_⟩
  · intro fuel st name rhs y st' old h1 h2 h3
    simp only [evalE]
    rw [h1]
    simp only [scopeSet]
    rw [show alistGet (currentFrame st').bindings name = some old from h2]
    simp [h3]
  · intro fuel st name rhs y st' h1 h2
    simp only [evalE]
    rw [h1]
    simp only [scopeSet]
    rw [show alistGet (currentFrame st').bindings name = none from h2]
  · intro fuel st name rhs y st' old h1 h2 h3
    simp only [evalE]
    rw [h1]
    simp only [scopeSet]
    rw [show alistGet (currentFrame st').bindings name = some old from h2]
    simp [h3]

/-- Claim C2 witness: the amended rule applied in `stC`, where the active
innermost scope holds no local binding for `x`. -/
theorem c2_witness :
    scopeGet (currentFrame stC) "x" = none
    ∧ evalE 2 stC (.assignVar "x" (.lit (.vint 2)))
        = (.ok (.vint 2), setCurrentFrame stC
            { currentFrame stC with
              bindings := alistPut (currentFrame stC).bindings "x"
                ⟨Value.vint 2, false⟩ }) :=
  ⟨rfl,
    c2_assign_innermost.2.1 1 stC "x" (.lit (.vint 2)) (.vint 2) stC rfl rfl⟩

/-! Claim C3. -/

/-- Claim C3: a return statement evaluates its operand and yields that
value as the statement's result (first conjunct), without any control-flow
signal: a successfully evaluated statement — a return included — merely has
its value superseded while evaluation continues with the remaining sibling
statements (fourth conjunct); a block evaluates its statement list in a
fresh child scope and passes through the list's result, which is the value
of the last statement evaluated (second and third conjuncts). -/
theorem c3_return_and_block :
    (∀ (fuel : Nat) (st : RState) (e : Expr),
      evalS (fuel + 1) st (.ret e) = evalE fuel st e)
    ∧ (∀ (fuel : Nat) (st : RState) (l : List Stmt),
      evalS (fuel + 1) st (.block l)
        = ((evalStmts fuel (pushScope st) l).1,
            popScope (evalStmts fuel (pushScope st) l).2))
    ∧ (∀ (fuel : Nat) (st : RState) (s : Stmt),
      evalStmts (fuel + 1) st [s] = evalS fuel st s)
    ∧ (∀ (fuel : Nat) (st : RState) (s r : Stmt) (rest : List Stmt)
        (v : Value) (st' : RState),
      evalS fuel st s = (.ok v, st') →
      evalStmts (fuel + 1) st (s :: r :: rest)
        = evalStmts fuel st' (r :: rest)) := by
  refine ⟨fun _ _ _ => rfl, fun _ _ _ => rfl, ?_, ?_⟩
  · intro fuel st s
    rcases hr : evalS fuel st s with ⟨r, st'⟩
    cases r <;> simp [evalStmts, hr]
  · intro fuel st s r rest v st' h
    simp [evalStmts, h]

/-- Claim C3 witness: a return followed by a sibling statement — the
return's value is produced, then superseded as evaluation continues. -/
theorem c3_witness :
    evalS 2 st0 (.ret (.lit (.vint 1))) = (.ok (.vint 1), st0)
    ∧ evalStmts 3 st0 [.ret (.lit (.vint 1)), .expr (.lit (.vint 2))]
        = evalStmts 2 st0 [.expr (.lit (.vint 2))] :=
  ⟨rfl,
    c3_return_and_block.2.2.2 2 st0 (.ret (.lit (.vint 1)))
      (.expr (.lit (.vint 2))) [] (.vint 1) st0 rfl⟩

/-! Claim C4. -/

/-- Claim C4 states that evaluating a binary `/` expression divides numeric
operands (integer quotients truncating toward zero).  The code cannot do
this: the operator switch of `EvalBinaryExpr` dispatches only the equality,
`+`, `-` and `*` tokens, so every `/` expression falls through to the
catch-all not-implemented error (first conjunct), while the fully
implemented `Div` helper — which does realise the claimed semantics
(remaining conjuncts) — is never invoked by any evaluator path. -/
theorem c4_div_not_dispatched :
    evalE 2 st0 (.binary .div (.lit (.vint 6)) (.lit (.vint 3)))
      = (.error .notImplemented, st0)
    ∧ Div (.vint 6) (.vint 3) = .ok (.vint 2)
    ∧ Div (.vint (-7)) (.vint 2) = .ok (.vint (Int.tdiv (-7) 2))
    ∧ Int.tdiv (-7) 2 = -3
    ∧ Div (.vint 1) (.vfloat 2) = .ok (.vfloat (((1 : Int) : Rat) / 2))
    ∧ Div (.vstr "a") (.vint 2) = .error .binaryOpNotImplemented :=
  ⟨rfl, rfl, rfl, by decide, rfl, rfl⟩

/-! Claim C5. -/

/-- Claim C5 counterexample: the claim says string `+` anything yields the
concatenation with the other operand's rendering, but adding a boolean to a
string fails with the unsupported-operand-types error — the string row of
the `Add` table only accepts integer, float and string right operands. -/
theorem c5_counterexample :
    Add (.vstr "a") (.vbool true) = .error .binaryOpNotImplemented := rfl

/-- Claim C5, amended: number+number yields a number (float if either
operand is a float, else integer); string + number-or-string yields the
concatenation of the string with the other operand's rendering — but a
string paired with any other kind (boolean, array, object, undefined,
function) is NOT concatenated and fails like every remaining pairing with
the unsupported-binary-operand-types error; array+array yields the left
elements followed by the right elements. -/
theorem c5_add_table :
    (∀ m n : Int, Add (.vint m) (.vint n) = .ok (.vint (m + n)))
    ∧ (∀ (m : Int) (q : Rat),
        Add (.vint m) (.vfloat q) = .ok (.vfloat ((m : Rat) + q)))
    ∧ (∀ (q : Rat) (n : Int),
        Add (.vfloat q) (.vint n) = .ok (.vfloat (q + (n : Rat))))
    ∧ (∀ q r : Rat, Add (.vfloat q) (.vfloat r) = .ok (.vfloat (q + r)))
    ∧ (∀ (s : String) (n : Int),
        Add (.vstr s) (.vint n) = .ok (.vstr (s ++ sprintInt n)))
    ∧ (∀ (s : String) (q : Rat),
        Add (.vstr s) (.vfloat q) = .ok (.vstr (s ++ sprintFloat q)))
    ∧ (∀ s t : String, Add (.vstr s) (.vstr t) = .ok (.vstr (s ++ t)))
    ∧ (∀ xs ys : List Value, Add (.varr xs) (.varr ys) = .ok (.varr (xs ++ ys)))
    ∧ (∀ x y : Value, addSupported x y = false →
        Add x y = .error .binaryOpNotImplemented) := by
  refine ⟨fun _ _ => rfl, fun _ _ => rfl, fun _ _ => rfl, fun _ _ => rfl,
    fun _ _ => rfl, fun _ _ => rfl, fun _ _ => rfl, fun _ _ => rfl, ?_⟩
  intro x y h
  cases x <;> cases y <;> simp_all [Add, addSupported]

/-- Claim C5 witness: a pairing outside the supported table fails. -/
theorem c5_witness :
    addSupported (.vbool true) (.vint 1) = false
    ∧ Add (.vbool true) (.vint 1) = .error .binaryOpNotImplemented :=
  ⟨rfl, c5_add_table.2.2.2.2.2.2.2.2 (.vbool true) (.vint 1) rfl⟩

/-! Claim C6. -/

/-- Claim C6 counterexample: the claim says every array times every integer
yields the repetition, but multiplying a non-empty array by a negative
count executes `make([]interface{}, len(xv)*yv)` with a negative length and
crashes with a runtime panic instead of producing an array. -/
theorem c6_counterexample :
    Mul (.varr [Value.vint 1]) (.vint (-1)) = .error .goPanic := rfl

/-- Claim C6, amended: string times integer yields the string repeated that
many times — the empty string for a count at most zero; array times a
NON-NEGATIVE integer yields the elements repeated that many times (the
empty array also results when the array itself is empty, any count); but a
non-empty array times a negative integer crashes with a runtime length
panic rather than yielding an array. -/
theorem c6_mul_repeat :
    (∀ (s : String) (n : Int),
      Mul (.vstr s) (.vint n) = .ok (.vstr (repeatString s n)))
    ∧ (∀ (s : String) (n : Int), n ≤ 0 →
      Mul (.vstr s) (.vint n) = .ok (.vstr ""))
    ∧ (∀ (a : List Value) (n : Int), 0 ≤ n →
      Mul (.varr a) (.vint n) = .ok (.varr (repeatList a n.toNat)))
    ∧ (∀ (a : List Value) (n : Int), n < 0 → a ≠ [] →
      Mul (.varr a) (.vint n) = .error .goPanic)
    ∧ (∀ n : Int, n < 0 → Mul (.varr []) (.vint n) = .ok (.varr [])) := by
  refine ⟨fun _ _ => rfl, ?_, ?_, ?_, ?_⟩
  · intro s n h
    have ht : n.toNat = 0 := Int.toNat_of_nonpos h
    simp [Mul, repeatString, ht, String.join]
  · intro a n h
    have hnn : ¬ ((a.length : Int) * n < 0) :=
      not_lt.2 (mul_nonneg (Int.natCast_nonneg _) h)
    simp [Mul, hnn]
  · intro a n h hne
    have hpos : (0 : Int) < (a.length : Int) := by
      exact_mod_cast Nat.pos_of_ne_zero (fun hz => hne (List.eq_nil_of_length_eq_zero hz))
    have hneg : (a.length : Int) * n < 0 := mul_neg_of_pos_of_neg hpos h
    simp [Mul, hneg]
  · intro n h
    simp [Mul, repeatList, flatten_replicate_nil]

/-- Claim C6 witness: the amended rule at concrete inputs — a repeated
string, an emptied string, a repeated array, and the negative-count panic. -/
theorem c6_witness :
    Mul (.vstr "ab") (.vint 3) = .ok (.vstr (repeatString "ab" 3))
    ∧ ((-2 : Int) ≤ 0 ∧ Mul (.vstr "ab") (.vint (-2)) = .ok (.vstr ""))
    ∧ ((0 : Int) ≤ 2 ∧ Mul (.varr [Value.vint 7]) (.vint 2)
        = .ok (.varr (repeatList [Value.vint 7] 2)))
    ∧ ((-1 : Int) < 0 ∧ [Value.vint 7] ≠ []
        ∧ Mul (.varr [Value.vint 7]) (.vint (-1)) = .error .goPanic) :=
  ⟨c6_mul_repeat.1 "ab" 3,
    ⟨by decide, c6_mul_repeat.2.1 "ab" (-2) (by decide)⟩,
    ⟨by decide, c6_mul_repeat.2.2.1 [Value.vint 7] 2 (by decide)⟩,
    ⟨by decide, by simp,
      c6_mul_repeat.2.2.2.1 [Value.vint 7] (-1) (by decide) (by simp)⟩⟩

/-! Claim C7. -/

/-- Claim C7: `scope.S.Set` on a name whose existing local binding is
constant fails with a constant-mutation error (reported with the old
binding) and leaves the scope unchanged, so the old binding keeps its value
and constancy (first conjunct); otherwise — name absent or bound
non-constant — it inserts or overwrites (second and third conjuncts), the
written binding is what a subsequent local lookup sees (fourth conjunct),
and a binding written non-constant accepts a further reassignment, i.e.
unlimited reassignment for non-constant bindings (fifth conjunct). -/
theorem c7_scope_set :
    (∀ (f : Frame) (name : String) (b old : Binding),
      scopeGet f name = some old → old.constant = true →
      scopeSet f name b = (some old, f))
    ∧ (∀ (f : Frame) (name : String) (b : Binding),
      scopeGet f name = none →
      scopeSet f name b
        = (none, { f with bindings := alistPut f.bindings name b }))
    ∧ (∀ (f : Frame) (name : String) (b old : Binding),
      scopeGet f name = some old → old.constant = false →
      scopeSet f name b
        = (none, { f with bindings := alistPut f.bindings name b }))
    ∧ (∀ (f : Frame) (name : String) (b : Binding),
      scopeGet { f with bindings := alistPut f.bindings name b } name = some b)
    ∧ (∀ (f f' : Frame) (name : String) (v : Value) (b2 : Binding),
      scopeSet f name ⟨v, false⟩ = (none, f') →
      scopeSet f' name b2
        = (none, { f' with bindings := alistPut f'.bindings name b2 })) := by
  refine ⟨?_, ?_, ?_, ?_, ?_⟩
  · intro f name b old h1 h2
    simp only [scopeSet]
    rw [show alistGet f.bindings name = some old from h1]
    simp [h2]
  · intro f name b h1
    simp only [scopeSet]
    rw [show alistGet f.bindings name = none from h1]
  · intro f name b old h1 h2
    simp only [scopeSet]
    rw [show alistGet f.bindings name = some old from h1]
    simp [h2]
  · intro f name b
    simp [scopeGet, alistGet_alistPut_self]
  · intro f f' name v b2 h
    have hb : f'.bindings = alistPut f.bindings name ⟨v, false⟩ := by
      simp only [scopeSet] at h
      cases hg : alistGet f.bindings name with
      | none =>
        rw [hg] at h
        simp only [Prod.mk.injEq] at h
        rw [← h.2]
      | some old =>
        rw [hg] at h
        by_cases hc : old.constant = true
        · simp [hc] at h
        · simp only [hc, if_false, Prod.mk.injEq, Bool.false_eq_true,
            ite_false] at h
          rw [← h.2]
    have hlook : alistGet f'.bindings name = some ⟨v, false⟩ := by
      rw [hb]
      exact alistGet_alistPut_self _ _ _
    simp only [scopeSet]
    rw [hlook]
    simp

/-- Claim C7 witness: the constant case rejects and preserves, the fresh
case inserts. -/
theorem c7_witness :
    (scopeGet f1 "a" = some ⟨Value.vint 1, true⟩
      ∧ scopeSet f1 "a" ⟨Value.vint 2, false⟩ = (some ⟨Value.vint 1, true⟩, f1))
    ∧ (scopeGet f1 "b" = none
      ∧ scopeSet f1 "b" ⟨Value.vint 3, false⟩
          = (none,
            { f1 with
              bindings := alistPut f1.bindings "b" (Binding.mk (Value.vint 3) false) })) :=
  ⟨⟨rfl, c7_scope_set.1 f1 "a" ⟨Value.vint 2, false⟩ ⟨Value.vint 1, true⟩ rfl rfl⟩,
    ⟨rfl, c7_scope_set.2.1 f1 "b" ⟨Value.vint 3, false⟩ rfl⟩⟩

/-! Claim C8. -/

/-- Claim C8 counterexample: with `a` bound constant in the active scope,
the re-declaration `const a = 2` surfaces no error — but it does NOT
replace the binding either: `EvalBindingElement` drops the error returned
by `scope.S.Set`, which on a constant old binding had left the scope
untouched, so the whole state is unchanged and `a` still holds its old
value; the claim's "new binding shadows (replaces) the previous one ...
including a constant one" is false. -/
theorem c8_counterexample :
    evalS 4 st8 (.varDecl true [⟨"a", some (.lit (.vint 2))⟩]) = (.ok .vundef, st8)
    ∧ scopeGet (currentFrame st8) "a" = some ⟨Value.vint 1, true⟩ :=
  ⟨rfl, rfl⟩

/-- Claim C8, amended: a let/const re-declaration (or parameter binding)
never surfaces an error from the binding write — `EvalBindingElement`
discards the error returned by `scope.S.Set` (first two conjuncts) — but
the new binding replaces the previous one only when the previous local
binding is non-constant (fourth conjunct); when it is constant, the write
was rejected inside `Set`, so the re-declaration is silently ignored and
the old binding keeps its value and constancy (third conjunct). -/
theorem c8_redeclare :
    (∀ (fuel : Nat) (st : RState) (name : String) (d : Expr) (c : Bool)
        (v : Value) (st' : RState),
      evalE fuel st d = (.ok v, st') →
      evalBindingElement (fuel + 1) st ⟨name, some d⟩ Value.vundef c
        = (none, setCurrentFrame st'
            (scopeSet (currentFrame st') name ⟨v, c⟩).2))
    ∧ (∀ (fuel : Nat) (st : RState) (el : BindingElement) (c : Bool)
        (v : Value),
      v ≠ Value.vundef →
      evalBindingElement (fuel + 1) st el v c
        = (none, setCurrentFrame st
            (scopeSet (currentFrame st) el.name ⟨v, c⟩).2))
    ∧ (∀ (f : Frame) (name : String) (b old : Binding),
      scopeGet f name = some old → old.constant = true →
      (scopeSet f name b).2 = f)
    ∧ (∀ (f : Frame) (name : String) (b old : Binding),
      scopeGet f name = some old → old.constant = false →
      scopeGet (scopeSet f name b).2 name = some b) := by
  refine ⟨?_, ?_, ?_, ?_⟩
  · intro fuel st name d c v st' h
    simp only [evalBindingElement, BindingElement.dflt]
    rw [h]
    rfl
  · intro fuel st el c v hv
    cases v with
    | vundef => exact absurd rfl hv
    | vint n => rfl
    | vfloat q => rfl
    | vstr s => rfl
    | vbool b => rfl
    | varr l => rfl
    | vobj l => rfl
    | vfunc a b c => rfl
  · intro f name b old h1 h2
    simp only [scopeSet]
    rw [show alistGet f.bindings name = some old from h1]
    simp [h2]
  · intro f name b old h1 h2
    simp only [scopeSet]
    rw [show alistGet f.bindings name = some old from h1]
    simp [h2, scopeGet, alistGet_alistPut_self]

/-- Claim C8 witness: a constant prior binding silently survives a
re-declaration; a non-constant one is replaced. -/
theorem c8_witness :
    (scopeGet f1 "a" = some ⟨Value.vint 1, true⟩
      ∧ (scopeSet f1 "a" ⟨Value.vint 2, true⟩).2 = f1)
    ∧ (scopeGet ⟨none, [("b", ⟨Value.vint 1, false⟩)]⟩ "b"
          = some ⟨Value.vint 1, false⟩
      ∧ scopeGet (scopeSet ⟨none, [("b", ⟨Value.vint 1, false⟩)]⟩ "b"
          ⟨Value.vint 2, false⟩).2 "b" = some ⟨Value.vint 2, false⟩) :=
  ⟨⟨rfl, c8_redeclare.2.2.1 f1 "a" ⟨Value.vint 2, true⟩ ⟨Value.vint 1, true⟩ rfl rfl⟩,
    ⟨rfl, c8_redeclare.2.2.2 ⟨none, [("b", ⟨Value.vint 1, false⟩)]⟩ "b"
      ⟨Value.vint 2, false⟩ ⟨Value.vint 1, false⟩ rfl rfl⟩⟩

/-! Claim C9. -/

/-- Claim C9: on an Object, dot access with the name `map`, `reduce` or
`forEach` always dispatches to the corresponding built-in collection
method — the switch tests the name before ever consulting the object's
entries — so an object's own entry stored under one of those three names is
never observable through dot access: the result is the built-in method
closure, never a plain stored value. -/
theorem c9_dot_builtins_shadow :
    ∀ (entries : List (String × Value)) (name : String),
      (name = "map" ∨ name = "reduce" ∨ name = "forEach") →
      (alistGet entries name).isSome = true →
      evalDotObj entries name = .method (builtinFor name) entries
      ∧ ∀ w : Value, evalDotObj entries name ≠ .val w := by
  intro entries name h hsome
  rcases h with rfl | rfl | rfl <;>
    refine ⟨by simp [evalDotObj, builtinFor], fun w hw => ?_⟩ <;>
    simp [evalDotObj] at hw

/-- Claim C9 witness: an object that stores its own entry under `map`
still yields the built-in method on dot access. -/
theorem c9_witness :
    (alistGet [("map", Value.vint 1)] "map").isSome = true
    ∧ evalDotObj [("map", Value.vint 1)] "map"
        = .method (builtinFor "map") [("map", Value.vint 1)] :=
  ⟨rfl, (c9_dot_builtins_shadow [("map", Value.vint 1)] "map" (Or.inl rfl) rfl).1⟩

/-! Claim C10. -/

/-- Claim C10: for an interpreted function, explicitly passing Undefined
(the `nil` interface value) in an argument position within the declared
parameter count is indistinguishable from omitting that argument: the whole
call produces the same result and state (first conjunct), because the
parameter-binding step maps an explicitly passed Undefined and an absent
argument to the very same `EvalBindingElement` run, which replaces the
Undefined by the declared default-value expression's result — or leaves
Undefined if there is none — and never binds the passed Undefined itself
(second conjunct). -/
theorem c10_undefined_arg :
    (∀ (fuel : Nat) (st : RState) (capScope : Nat)
        (params : List BindingElement) (body : List Stmt) (args : List Value),
      args.length < params.length →
      callJS fuel st capScope params body (args ++ [Value.vundef])
        = callJS fuel st capScope params body args)
    ∧ (∀ (fuel : Nat) (st : RState) (el : BindingElement),
      bindParams fuel st [el] [Value.vundef] = bindParams fuel st [el] []) := by
  constructor
  · intro fuel st capScope params body args h
    match fuel with
    | 0 => rfl
    | fuel + 1 =>
      have hlen : ¬ ((args ++ [Value.vundef]).length > params.length) := by
        simp only [List.length_append, List.length_cons, List.length_nil]
        omega
      have hlen' : ¬ (args.length > params.length) := by omega
      simp only [callJS, hlen, hlen', if_neg, ite_false, not_false_iff]
      rw [bindParams_trailing_undef params fuel (pushScopeFrom st capScope) args h]
  · intro fuel st el
    match fuel with
    | 0 => rfl
    | fuel + 1 => rfl

/-- Claim C10 witness: calling a one-parameter function with an explicit
Undefined argument equals calling it with no argument at all. -/
theorem c10_witness :
    (([] : List Value).length < [BindingElement.mk "x" (some (.lit (.vint 9)))].length)
    ∧ callJS 9 st0 0 [⟨"x", some (.lit (.vint 9))⟩] [.ret (.evar "x")]
        [Value.vundef]
      = callJS 9 st0 0 [⟨"x", some (.lit (.vint 9))⟩] [.ret (.evar "x")] [] :=
  ⟨by decide,
    c10_undefined_arg.1 9 st0 0 [⟨"x", some (.lit (.vint 9))⟩]
      [.ret (.evar "x")] [] (by decide)⟩

end Gojuice
